import Mathlib

/-!
Shallow embedding of `rotkehlchen/accounting/accountant.py` (the `Accountant`
history-processing engine) and proofs about its behaviour.

Python exceptions are modelled as `Except Err`; a method that mutates `self`
before raising returns the mutated state together with the error, matching
Python semantics where attribute writes performed before a `raise` persist.
Monetary values (`FVal`) are modelled as `ℚ`; timestamps as `Int`.
-/

namespace RotkiAccounting

abbrev Asset := String

abbrev Time := Int

/-- Kind of a user-visible message sent to the `MessagesAggregator`
(`add_warning` vs `add_error`). -/
inductive MsgKind
  | warning
  | error
deriving DecidableEq, Repr

structure Message where
  kind : MsgKind
  text : String
deriving DecidableEq, Repr

/-- The exceptions that can cross `process_action`'s boundary.  The first
three are the recoverable price-resolution errors caught in
`process_history`; `assertionError` models Python `AssertionError` and
`otherError` stands for any other exception. -/
inductive Err
  | priceQueryUnsupportedAsset (detail : String)
  | noPriceForGivenTimestamp (detail : String)
  | remoteError (detail : String)
  | assertionError (detail : String)
  | otherError (detail : String)
deriving DecidableEq, Repr

/-- The three error kinds caught at the dispatch call site in
`process_history` (lines 323-361). -/
def Err.isRecoverable : Err → Bool
  | .priceQueryUnsupportedAsset _ => true
  | .noPriceForGivenTimestamp _ => true
  | .remoteError _ => true
  | .assertionError _ => false
  | .otherError _ => false

inductive ResolutionError
  | unknownAsset (name : String)
  | unsupportedAsset (name : String)
  | deserializationError
deriving DecidableEq, Repr

/-- An asset field as stored on an action, before resolution.  Resolution can
yield a proper asset or an `UnknownEthereumToken`, or fail. -/
inductive RawAsset
  | known (ident : String)
  | unknownToken (name : String)
  | unknownAsset (name : String)
  | unsupportedAsset (name : String)
  | malformed (name : String)
deriving DecidableEq, Repr

/-- Identifier of the underlying asset object (`asset.identifier`). -/
def RawAsset.ident : RawAsset → String
  | .known i => i
  | .unknownToken n => n
  | .unknownAsset n => n
  | .unsupportedAsset n => n
  | .malformed n => n

/-- A successfully resolved asset: either a known `Asset` or an
`UnknownEthereumToken` instance. -/
inductive ResolvedAsset
  | known (ident : String)
  | unknownToken (name : String)
deriving DecidableEq, Repr

def ResolvedAsset.isUnknownTok : ResolvedAsset → Bool
  | .known _ => false
  | .unknownToken _ => true

/-- Membership of a resolved asset in the ignored-assets list (an
`UnknownEthereumToken` is never equal to an `Asset`, so never ignored). -/
def ResolvedAsset.isIgnored (ignored : List Asset) : ResolvedAsset → Bool
  | .known i => ignored.contains i
  | .unknownToken _ => false

/-- Modelled from the spec: asset deserialization (the `Asset` constructors
used by `action_get_assets` live outside `src/`).  A raw asset resolves to a
known asset or an `UnknownEthereumToken`, or raises `UnknownAsset`,
`UnsupportedAsset` or `DeserializationError`. -/
def resolveRaw : RawAsset → Except ResolutionError ResolvedAsset
  | .known i => .ok (.known i)
  | .unknownToken n => .ok (.unknownToken n)
  | .unknownAsset n => .error (.unknownAsset n)
  | .unsupportedAsset n => .error (.unsupportedAsset n)
  | .malformed _ => .error .deserializationError

inductive TradeType
  | buy
  | sell
  | settlement_buy
  | settlement_sell
deriving DecidableEq, Repr

structure Trade where
  base_asset : RawAsset
  quote_asset : RawAsset
  amount : ℚ
  rate : ℚ
  fee : ℚ
  fee_currency : Asset
  location : String
  timestamp : Time
  trade_type : TradeType
deriving DecidableEq, Repr

structure Loan where
  currency : RawAsset
  amount_lent : ℚ
  earned : ℚ
  fee : ℚ
  open_time : Time
  close_time : Time
  location : String
deriving DecidableEq, Repr

structure AssetMovement where
  asset : RawAsset
  fee_asset : Asset
  fee : ℚ
  category : String
  location : String
  timestamp : Time
deriving DecidableEq, Repr

structure EthereumTransaction where
  gas_used : Int
  gas_price : Int
  tx_hash : String
  timestamp : Time
deriving DecidableEq, Repr

structure MarginPosition where
  pl_currency : RawAsset
  profit_loss : ℚ
  close_time : Time
  location : String
deriving DecidableEq, Repr

structure DefiEvent where
  asset : RawAsset
  profit_loss : ℚ
  timestamp : Time
deriving DecidableEq, Repr

/-- The `TaxableAction` tagged union processed by the engine. -/
inductive Action
  | trade (t : Trade)
  | loan (l : Loan)
  | assetMovement (m : AssetMovement)
  | ethereumTransaction (tx : EthereumTransaction)
  | marginPosition (mp : MarginPosition)
  | defiEvent (d : DefiEvent)
deriving DecidableEq, Repr

/-- Modelled from the spec: `action_get_timestamp` (in
`rotkehlchen/utils/accounting.py`, outside `src/`): every variant exposes a
timestamp; for a loan it is the close time. -/
def action_get_timestamp : Action → Time
  | .trade t => t.timestamp
  | .loan l => l.close_time
  | .assetMovement m => m.timestamp
  | .ethereumTransaction tx => tx.timestamp
  | .marginPosition mp => mp.close_time
  | .defiEvent d => d.timestamp

/-- Modelled from the spec: `action_get_type` (outside `src/`) returns the
dispatch tag for each variant. -/
def action_get_type : Action → String
  | .trade _ => "trade"
  | .loan _ => "loan"
  | .assetMovement _ => "asset_movement"
  | .ethereumTransaction _ => "ethereum_transaction"
  | .marginPosition _ => "margin_position"
  | .defiEvent _ => "defi_event"

/-- Modelled from the spec: `action_get_assets` (outside `src/`) resolves the
asset(s) involved in an action, raising `UnknownAsset`, `UnsupportedAsset` or
`DeserializationError` on malformed data.  An ethereum transaction involves
only ETH, which always resolves. -/
def action_get_assets : Action → Except ResolutionError (ResolvedAsset × Option ResolvedAsset)
  | .trade t => do
      let a ← resolveRaw t.base_asset
      let b ← resolveRaw t.quote_asset
      return (a, some b)
  | .loan l => do
      let a ← resolveRaw l.currency
      return (a, none)
  | .assetMovement m => do
      let a ← resolveRaw m.asset
      return (a, none)
  | .ethereumTransaction _ => .ok (.known "ETH", none)
  | .marginPosition mp => do
      let a ← resolveRaw mp.pl_currency
      return (a, none)
  | .defiEvent d => do
      let a ← resolveRaw d.asset
      return (a, none)

def A_ETH : Asset := "ETH"

def A_BTC : Asset := "BTC"

/-- A call made to the `TaxableEvents` ledger collaborator.  Modelled from
the spec: `TaxableEvents` (the Ledger) lives outside `src/`, so the engine's
calls into it are recorded as operations; each constructor's fields are the
arguments the engine passes at the corresponding call site. -/
inductive LedgerOp
  | addLoanGain (location : String) (gained_asset : Asset)
      (lent_amount gained_amount fee_in_asset : ℚ) (open_time close_time : Time)
  | addMarginPosition (pl_currency : Asset) (profit_loss : ℚ) (close_time : Time)
  | addDefiEvent (asset : Asset) (profit_loss : ℚ) (timestamp : Time)
  | addBuyAndCorrespondingSell (location : String) (bought_asset : Asset)
      (bought_amount : ℚ) (paid_with_asset : Asset) (trade_rate fee_in_profit_currency : ℚ)
      (fee_currency : Asset) (timestamp : Time)
  | addSellAndCorrespondingBuy (location : String) (selling_asset : Asset)
      (selling_amount : ℚ) (receiving_asset : Asset) (receiving_amount : ℚ)
      (gain_in_profit_currency total_fee_in_profit_currency trade_rate rate_in_profit_currency : ℚ)
      (timestamp : Time)
  | addSell (location : String) (selling_asset : Asset) (selling_amount : ℚ)
      (receiving_asset : Option Asset) (receiving_amount : Option ℚ)
      (gain_in_profit_currency total_fee_in_profit_currency trade_rate rate_in_profit_currency : ℚ)
      (timestamp : Time) (loan_settlement : Bool)
deriving DecidableEq, Repr

/-- Whether a ledger operation records a buy lot for some asset. -/
def LedgerOp.recordsBuy : LedgerOp → Bool
  | .addBuyAndCorrespondingSell _ _ _ _ _ _ _ _ => true
  | .addSellAndCorrespondingBuy _ _ _ _ _ _ _ _ _ _ => true
  | _ => false

/-- State of the `TaxableEvents` collaborator visible to the engine: the log
of ledger calls plus the running per-category totals and the policy toggles
set by `_customize`. -/
structure EventsState where
  ops : List LedgerOp
  general_trade_profit_loss : ℚ
  taxable_trade_profit_loss : ℚ
  margin_positions_profit_loss : ℚ
  defi_profit_loss : ℚ
  loan_profit : ℚ
  settlement_losses : ℚ
  include_crypto2crypto : Bool
  taxfree_after_period : Option Int
  account_for_assets_movements : Bool
deriving DecidableEq, Repr

/-- Mutable state of the `Accountant` instance.  `ignoredReads` counts the
calls made to `db.get_ignored_assets()`. -/
structure AccountantState where
  events : EventsState
  msgs : List Message
  profit_currency : Asset
  asset_movement_fees : ℚ
  eth_transactions_gas_costs : ℚ
  last_gas_price : Int
  start_ts : Time
  started_processing_timestamp : Time
  currently_processing_timestamp : Time
  ignoredReads : Nat
deriving DecidableEq, Repr

def AccountantState.addWarning (st : AccountantState) (text : String) : AccountantState :=
  {st with msgs := st.msgs ++ [⟨MsgKind.warning, text⟩]}

def AccountantState.addError (st : AccountantState) (text : String) : AccountantState :=
  {st with msgs := st.msgs ++ [⟨MsgKind.error, text⟩]}

def AccountantState.appendOp (st : AccountantState) (op : LedgerOp) : AccountantState :=
  {st with events := {st.events with ops := st.events.ops ++ [op]}}

/-- The `DBSettings` relevant to the accountant. -/
structure DBSettings where
  main_currency : Asset
  include_crypto2crypto : Option Bool
  taxfree_after_period : Option Int
  account_for_assets_movements : Option Bool
  include_gas_costs : Bool
deriving DecidableEq, Repr

/-- External collaborators: the price oracle
(`PriceHistorian().query_historical_price` and
`TaxableEvents.get_rate_in_profit_currency`), the database's ignored-assets
set (indexed by how many reads have happened, so that a set changing between
reads is expressible), and the database settings. -/
structure Env where
  oracle : Asset → Asset → Time → Except Err ℚ
  ignoredAssetsSeq : Nat → List Asset
  settings : DBSettings

/-- Modelled from the spec: `timestamp_to_date` (in `rotkehlchen/utils/misc.py`,
outside `src/`) renders a timestamp for the user-visible message; the real
helper formats it with pattern `%d/%m/%Y, %H:%M:%S`. -/
def timestampToDate (ts : Time) : String := toString ts

/-- Modelled from the spec: `TaxableEvents.get_rate_in_profit_currency`
(outside `src/`) queries the price oracle for the asset's rate in the profit
currency at the given timestamp. -/
def get_rate_in_profit_currency (env : Env) (st : AccountantState) (asset : Asset)
    (timestamp : Time) : Except Err ℚ :=
  env.oracle asset st.profit_currency timestamp

/-- `Accountant._customize` (lines 83-101): apply the pulled `DBSettings`. -/
def customize (settings : DBSettings) (st : AccountantState) : AccountantState :=
  let st :=
    match settings.include_crypto2crypto with
    | some b => {st with events := {st.events with include_crypto2crypto := b}}
    | none => st
  let st :=
    match settings.taxfree_after_period with
    | some p =>
        {st with events :=
          {st.events with taxfree_after_period := if p = -1 then none else some p}}
    | none => st
  let st := {st with profit_currency := settings.main_currency}
  match settings.account_for_assets_movements with
  | some b => {st with events := {st.events with account_for_assets_movements := b}}
  | none => st

/-- `Accountant.get_fee_in_profit_currency` (lines 103-118). -/
def get_fee_in_profit_currency (env : Env) (st : AccountantState) (trade : Trade) :
    Except Err ℚ :=
  match env.oracle trade.fee_currency st.profit_currency trade.timestamp with
  | .error e => .error e
  | .ok fee_rate => .ok (fee_rate * trade.fee)

/-- `Accountant.add_asset_movement_to_events` (lines 120-160). -/
def add_asset_movement_to_events (env : Env) (st : AccountantState)
    (movement : AssetMovement) : AccountantState × Except Err Unit :=
  let timestamp := movement.timestamp
  if timestamp < st.start_ts then (st, .ok ())
  else if movement.asset.ident == "KFEE" || !st.events.account_for_assets_movements then
    (st, .ok ())
  else
    match get_rate_in_profit_currency env st movement.fee_asset timestamp with
    | .error e => (st, .error e)
    | .ok fee_rate =>
        let cost := movement.fee * fee_rate
        ({st with asset_movement_fees := st.asset_movement_fees + cost}, .ok ())

/-- `Accountant.account_for_gas_costs` (lines 162-206).  Note the order: the
`last_gas_price` update (line 186) happens before the ETH rate query
(line 188), so it persists even when the rate query raises. -/
def account_for_gas_costs (env : Env) (st : AccountantState)
    (transaction : EthereumTransaction) (include_gas_costs : Bool) :
    AccountantState × Except Err Unit :=
  if !include_gas_costs then (st, .ok ())
  else if transaction.timestamp < st.start_ts then (st, .ok ())
  else
    let gas_price : Int :=
      if transaction.gas_price = -1 then st.last_gas_price else transaction.gas_price
    let st1 :=
      if transaction.gas_price = -1 then st
      else {st with last_gas_price := transaction.gas_price}
    match get_rate_in_profit_currency env st A_ETH transaction.timestamp with
    | .error e => (st1, .error e)
    | .ok rate =>
        let eth_burned_as_gas : ℚ := ((transaction.gas_used * gas_price : Int) : ℚ) / 10 ^ 18
        let cost := eth_burned_as_gas * rate
        ({st1 with eth_transactions_gas_costs := st1.eth_transactions_gas_costs + cost},
         .ok ())

/-- Modelled from the spec: `TaxableEvents.add_loan_gain` (outside `src/`):
realized profit = gained amount valued at close time minus fee valued at
close time, accumulated into `loan_profit`; no FIFO lots touched. -/
def add_loan_gain (env : Env) (st : AccountantState) (location : String)
    (gained_asset : Asset) (lent_amount gained_amount fee_in_asset : ℚ)
    (open_time close_time : Time) : AccountantState × Except Err Unit :=
  match get_rate_in_profit_currency env st gained_asset close_time with
  | .error e => (st, .error e)
  | .ok rate =>
      let profit := gained_amount * rate - fee_in_asset * rate
      let st := st.appendOp
        (.addLoanGain location gained_asset lent_amount gained_amount fee_in_asset
          open_time close_time)
      ({st with events := {st.events with loan_profit := st.events.loan_profit + profit}},
       .ok ())

/-- Modelled from the spec: `TaxableEvents.add_margin_position` (outside
`src/`): the caller-supplied profit/loss is accumulated into
`margin_positions_profit_loss`; no price lookups are performed. -/
def add_margin_position (st : AccountantState) (margin : MarginPosition) :
    AccountantState × Except Err Unit :=
  let st := st.appendOp
    (.addMarginPosition margin.pl_currency.ident margin.profit_loss margin.close_time)
  ({st with events :=
     {st.events with margin_positions_profit_loss :=
       st.events.margin_positions_profit_loss + margin.profit_loss}},
   .ok ())

/-- Modelled from the spec: `TaxableEvents.add_defi_event` (outside `src/`):
the caller-supplied profit/loss is accumulated into `defi_profit_loss`. -/
def add_defi_event (st : AccountantState) (event : DefiEvent) :
    AccountantState × Except Err Unit :=
  let st := st.appendOp (.addDefiEvent event.asset.ident event.profit_loss event.timestamp)
  ({st with events :=
     {st.events with defi_profit_loss := st.events.defi_profit_loss + event.profit_loss}},
   .ok ())

/-- `Accountant.trade_add_to_sell_events` (lines 208-256). -/
def trade_add_to_sell_events (env : Env) (st : AccountantState) (trade : Trade)
    (loan_settlement : Bool) : AccountantState × Except Err Unit :=
  let selling_asset := trade.base_asset.ident
  let receiving_asset := trade.quote_asset.ident
  match get_rate_in_profit_currency env st receiving_asset trade.timestamp with
  | .error e => (st, .error e)
  | .ok receiving_asset_rate =>
    let selling_rate := receiving_asset_rate * trade.rate
    match get_fee_in_profit_currency env st trade with
    | .error e => (st, .error e)
    | .ok fee_in_profit_currency =>
      let gain_in_profit_currency := selling_rate * trade.amount
      if !loan_settlement then
        (st.appendOp
          (.addSellAndCorrespondingBuy trade.location selling_asset trade.amount
            receiving_asset (trade.amount * trade.rate) gain_in_profit_currency
            fee_in_profit_currency trade.rate selling_rate trade.timestamp),
         .ok ())
      else
        (st.appendOp
          (.addSell trade.location selling_asset trade.amount none none
            gain_in_profit_currency fee_in_profit_currency trade.rate selling_rate
            trade.timestamp true),
         .ok ())

/-- Dispatch by action kind (lines 477-559 of `process_action`): every branch
forwards to the matching accounting operation; the returned pair is the
state after the branch together with the raised exception, if any.  The
unknown-trade-type `AssertionError` (line 557) is unreachable here because
`TradeType` is matched exhaustively. -/
def dispatch_action (env : Env) (st : AccountantState) (action : Action)
    (db_settings : DBSettings) : AccountantState × Except Err Unit :=
  match action with
  | .loan l =>
      add_loan_gain env st l.location l.currency.ident l.amount_lent
        l.earned l.fee l.open_time (action_get_timestamp action)
  | .assetMovement m => add_asset_movement_to_events env st m
  | .marginPosition mp => add_margin_position st mp
  | .ethereumTransaction tx => account_for_gas_costs env st tx db_settings.include_gas_costs
  | .defiEvent d => add_defi_event st d
  | .trade trade =>
      match trade.trade_type with
      | .buy =>
          match get_fee_in_profit_currency env st trade with
          | .error e => (st, .error e)
          | .ok fee_in_profit_currency =>
              (st.appendOp
                (.addBuyAndCorrespondingSell trade.location trade.base_asset.ident
                  trade.amount trade.quote_asset.ident trade.rate fee_in_profit_currency
                  trade.fee_currency trade.timestamp),
               .ok ())
      | .sell => trade_add_to_sell_events env st trade false
      | .settlement_sell => trade_add_to_sell_events env st trade true
      | .settlement_buy =>
          let selling_asset := A_BTC
          match get_rate_in_profit_currency env st selling_asset trade.timestamp with
          | .error e => (st, .error e)
          | .ok selling_asset_rate =>
              let selling_rate := selling_asset_rate * trade.rate
              match get_fee_in_profit_currency env st trade with
              | .error e => (st, .error e)
              | .ok fee_in_profit_currency =>
                  let gain_in_profit_currency := selling_rate * trade.amount
                  let selling_amount := trade.rate * trade.amount
                  (st.appendOp
                    (.addSell trade.location selling_asset selling_amount none none
                      gain_in_profit_currency fee_in_profit_currency trade.rate
                      selling_asset_rate trade.timestamp true),
                   .ok ())

/-- `Accountant.process_action` (lines 404-559).  Returns, alongside the
mutated state, either the `(should_continue, prev_time)` pair or the raised
exception.  `db.get_ignored_assets()` is called first (line 421), before the
ordering assertion and the `end_ts` check. -/
def process_action (env : Env) (st : AccountantState) (action : Action)
    (end_ts prev_time : Time) (db_settings : DBSettings) :
    AccountantState × Except Err (Bool × Time) :=
  let ignored_assets := env.ignoredAssetsSeq st.ignoredReads
  let st := {st with ignoredReads := st.ignoredReads + 1}
  let timestamp := action_get_timestamp action
  if timestamp < prev_time then
    (st, .error (.assertionError
      "During history processing the trades/loans are not in ascending order"))
  else
  let prev_time := timestamp
  if end_ts < timestamp then (st, .ok (false, prev_time))
  else
  let st := {st with currently_processing_timestamp := timestamp}
  match action_get_assets action with
  | .error (.unknownAsset n) =>
      (st.addWarning ("At history processing found trade with unknown asset " ++ n ++
        ". Ignoring the trade."), .ok (true, prev_time))
  | .error (.unsupportedAsset n) =>
      (st.addWarning ("At history processing found trade with unsupported asset " ++ n ++
        ". Ignoring the trade."), .ok (true, prev_time))
  | .error .deserializationError =>
      (st.addError
        "At history processing found trade with non string asset type. Ignoring the trade.",
       .ok (true, prev_time))
  | .ok (asset1, asset2) =>
  if asset1.isUnknownTok || (asset2.map ResolvedAsset.isUnknownTok).getD false then
    (st, .ok (true, prev_time))
  else if asset1.isIgnored ignored_assets ||
      (asset2.map (ResolvedAsset.isIgnored ignored_assets)).getD false then
    (st, .ok (true, prev_time))
  else
    let (st2, r) := dispatch_action env st action db_settings
    (st2, r.map fun _ => (true, prev_time))

/-- Skip message for `PriceQueryUnsupportedAsset` (lines 325-330). -/
def skipMsgUnsupported (ts : Time) : String :=
  "Skipping action at  " ++ timestampToDate ts ++
    " during history processing due to an asset unknown to cryptocompare being involved. Check logs for details"

/-- Skip message for `NoPriceForGivenTimestamp` (lines 338-343). -/
def skipMsgNoPrice (ts : Time) (detail : String) : String :=
  "Skipping action at  " ++ timestampToDate ts ++
    " during history processing due to inability to find a price at that point in time: " ++
    detail ++ ". Check the logs for more details"

/-- Skip message for `RemoteError` (lines 351-356). -/
def skipMsgRemote (ts : Time) (detail : String) : String :=
  "Skipping action at  " ++ timestampToDate ts ++
    " during history processing due to inability to reach an external service at that point in time: " ++
    detail ++ ". Check the logs for more details"

/-- How the per-action loop of `process_history` ends: it falls off the end
of the list, breaks because `process_action` said not to continue, or an
uncaught exception propagates. -/
inductive LoopOutcome
  | finished (st : AccountantState) (prev_time : Time)
  | stopped (st : AccountantState)
  | failed (st : AccountantState) (e : Err)
deriving Repr

/-- The per-action loop of `process_history` (lines 315-371): each action is
dispatched to `process_action`; the three recoverable price errors are
caught, turned into one user-visible error message and a skip (leaving
`prev_time` unchanged, as the assignment never happened); any other
exception propagates.  The periodic `gevent.sleep` yield is a cooperative
scheduling courtesy with no effect on the computed state. -/
def processActions (env : Env) (db_settings : DBSettings) (end_ts : Time) :
    List Action → AccountantState → Time → LoopOutcome
  | [], st, prev_time => .finished st prev_time
  | action :: rest, st, prev_time =>
    match process_action env st action end_ts prev_time db_settings with
    | (st2, .ok (should_continue, prev2)) =>
        if should_continue then processActions env db_settings end_ts rest st2 prev2
        else .stopped st2
    | (st2, .error (.priceQueryUnsupportedAsset _)) =>
        processActions env db_settings end_ts rest
          (st2.addError (skipMsgUnsupported (action_get_timestamp action))) prev_time
    | (st2, .error (.noPriceForGivenTimestamp d)) =>
        processActions env db_settings end_ts rest
          (st2.addError (skipMsgNoPrice (action_get_timestamp action) d)) prev_time
    | (st2, .error (.remoteError d)) =>
        processActions env db_settings end_ts rest
          (st2.addError (skipMsgRemote (action_get_timestamp action) d)) prev_time
    | (st2, .error e) => .failed st2 e

/-- Stable insertion into a list already sorted by timestamp: the new element
goes after every element with a smaller-or-equal timestamp.  Folding this
over the input reproduces a stable ascending sort, as Python's `list.sort`
(line 307) is stable. -/
def sortInsert (a : Action) : List Action → List Action
  | [] => [a]
  | b :: l =>
      if action_get_timestamp b ≤ action_get_timestamp a then b :: sortInsert a l
      else a :: b :: l

/-- Stable ascending sort of the merged action list by
`action_get_timestamp` (lines 307-309). -/
def sortActions (l : List Action) : List Action :=
  l.foldl (fun acc x => sortInsert x acc) []

/-- The overview part of the report returned by `process_history`
(lines 385-402).  The Python code stringifies each decimal; the values
themselves are modelled. -/
structure Report where
  defi_profit_loss : ℚ
  loan_profit : ℚ
  margin_positions_profit_loss : ℚ
  settlement_losses : ℚ
  ethereum_transaction_gas_costs : ℚ
  asset_movement_fees : ℚ
  general_trade_profit_loss : ℚ
  taxable_trade_profit_loss : ℚ
  total_taxable_profit_loss : ℚ
  total_profit_loss : ℚ
  all_events : List LedgerOp
deriving DecidableEq, Repr

/-- Final aggregation of `process_history` (lines 376-402). -/
def buildReport (st : AccountantState) : Report :=
  let sum_other_actions :=
    st.events.margin_positions_profit_loss +
    st.events.defi_profit_loss +
    st.events.loan_profit -
    st.events.settlement_losses -
    st.asset_movement_fees -
    st.eth_transactions_gas_costs
  let total_taxable_pl := st.events.taxable_trade_profit_loss + sum_other_actions
  { defi_profit_loss := st.events.defi_profit_loss
    loan_profit := st.events.loan_profit
    margin_positions_profit_loss := st.events.margin_positions_profit_loss
    settlement_losses := st.events.settlement_losses
    ethereum_transaction_gas_costs := st.eth_transactions_gas_costs
    asset_movement_fees := st.asset_movement_fees
    general_trade_profit_loss := st.events.general_trade_profit_loss
    taxable_trade_profit_loss := st.events.taxable_trade_profit_loss
    total_taxable_profit_loss := total_taxable_pl
    total_profit_loss := st.events.general_trade_profit_loss + sum_other_actions
    all_events := st.events.ops }

/-- Modelled from the spec: `TaxableEvents.reset` (outside `src/`) clears the
run state of the ledger collaborator at the start of every invocation (spec
run-state lifecycle: reset at the start of every `process_history` call). -/
def eventsReset (ev : EventsState) : EventsState :=
  {ev with
    ops := [], general_trade_profit_loss := 0, taxable_trade_profit_loss := 0,
    margin_positions_profit_loss := 0, defi_profit_loss := 0, loan_profit := 0,
    settlement_losses := 0}

/-- The run-state reset at the start of `process_history` (lines 281-286):
the ledger collaborator is reset, the carried-forward gas price is set to
its fixed default `2000000000`, and the per-run monetary accumulators are
zeroed. -/
def resetRunState (start_ts : Time) (st0 : AccountantState) : AccountantState :=
  {st0 with
    events := eventsReset st0.events,
    last_gas_price := 2000000000, start_ts := start_ts,
    eth_transactions_gas_costs := 0, asset_movement_fees := 0}

/-- `Accountant.process_history` (lines 258-402).  Processing always starts
from the first historical action; `start_ts` only gates monetary effects
inside the per-category methods. -/
def process_history (env : Env) (start_ts end_ts : Time)
    (trade_history : List Action) (loan_history : List Loan)
    (asset_movements : List AssetMovement) (eth_transactions : List EthereumTransaction)
    (defi_events : List DefiEvent) (st0 : AccountantState) :
    AccountantState × Except Err Report :=
  let st := resetRunState start_ts st0
  let db_settings := env.settings
  let st := customize db_settings st
  let actions := trade_history ++ loan_history.map Action.loan ++
    asset_movements.map Action.assetMovement ++
    eth_transactions.map Action.ethereumTransaction ++
    defi_events.map Action.defiEvent
  let actions := sortActions actions
  let first_ts : Time := match actions with
    | [] => 0
    | a :: _ => action_get_timestamp a
  let st := {st with
    currently_processing_timestamp := first_ts,
    started_processing_timestamp := first_ts}
  match processActions env db_settings end_ts actions st 0 with
  | .failed st2 e => (st2, .error e)
  | .finished st2 _ => (st2, .ok (buildReport st2))
  | .stopped st2 => (st2, .ok (buildReport st2))

/-- State carried by a loop outcome. -/
def LoopOutcome.state : LoopOutcome → AccountantState
  | .finished st _ => st
  | .stopped st => st
  | .failed st _ => st

/-- Whether the loop ended with a propagated exception. -/
def LoopOutcome.isFailed : LoopOutcome → Bool
  | .failed _ _ => true
  | _ => false

/-- The user-visible skip message `process_history` emits for a recoverable
error caught around `process_action` (one per caught error kind); empty for
the kinds that are not caught. -/
def skipMsg : Err → Time → String
  | .priceQueryUnsupportedAsset _, ts => skipMsgUnsupported ts
  | .noPriceForGivenTimestamp d, ts => skipMsgNoPrice ts d
  | .remoteError d, ts => skipMsgRemote ts d
  | .assertionError _, _ => ""
  | .otherError _, _ => ""

/-- The one user-visible message `process_action` emits when asset
resolution fails (lines 439-456): a warning for unknown or unsupported
assets, an error for a malformed (non-string) asset. -/
def resolutionMsg : ResolutionError → Message
  | .unknownAsset n =>
      ⟨MsgKind.warning, "At history processing found trade with unknown asset " ++ n ++
        ". Ignoring the trade."⟩
  | .unsupportedAsset n =>
      ⟨MsgKind.warning, "At history processing found trade with unsupported asset " ++ n ++
        ". Ignoring the trade."⟩
  | .deserializationError =>
      ⟨MsgKind.error,
        "At history processing found trade with non string asset type. Ignoring the trade."⟩

/-- The gas price `account_for_gas_costs` carries forward after a stream of
transactions: the gas price of the last transaction that was at or after
`start_ts` and carried a real (non-sentinel) gas price, or the initial value
if there is none. -/
def lastRealGasPrice (start_ts : Time) (txs : List EthereumTransaction) (init : Int) : Int :=
  txs.foldl
    (fun acc tx =>
      if tx.timestamp < start_ts then acc
      else if tx.gas_price = -1 then acc
      else tx.gas_price)
    init

/-- Running `account_for_gas_costs` (with gas costs enabled) over a stream of
transactions, keeping the mutated state also when an action is skipped by a
recoverable price error, as `process_history` does. -/
def runGasStream (env : Env) (txs : List EthereumTransaction) (st : AccountantState) :
    AccountantState :=
  txs.foldl (fun s tx => (account_for_gas_costs env s tx true).1) st

/-- Fixture: settings with every optional toggle absent and gas costs on. -/
def wSettings : DBSettings := ⟨"EUR", none, none, none, true⟩

/-- Fixture: an environment whose oracle always returns rate 1 and whose
ignored-assets set is empty. -/
def wEnvOk : Env := ⟨fun _ _ _ => .ok 1, fun _ => [], wSettings⟩

/-- Fixture: a freshly initialized accountant state. -/
def wState : AccountantState :=
  { events := ⟨[], 0, 0, 0, 0, 0, 0, true, none, true⟩, msgs := [],
    profit_currency := "EUR", asset_movement_fees := 0,
    eth_transactions_gas_costs := 0, last_gas_price := 0, start_ts := 0,
    started_processing_timestamp := -1, currently_processing_timestamp := -1,
    ignoredReads := 0 }

/-- Fixture: an environment whose price oracle always fails with
`NoPriceForGivenTimestamp`. -/
def wEnvNoPrice : Env :=
  ⟨fun _ _ _ => .error (.noPriceForGivenTimestamp "no price found"), fun _ => [], wSettings⟩

/-- Fixture: an environment whose oracle returns rate 1 and whose
ignored-assets set is exactly BTC. -/
def wEnvIgnoredBtc : Env := ⟨fun _ _ _ => .ok 1, fun _ => ["BTC"], wSettings⟩

/-- Fixture: an ethereum transaction with a real gas price at time 10. -/
def wTx : EthereumTransaction := ⟨21000, 50, "0xabc", 10⟩

def wTxAction : Action := .ethereumTransaction wTx

/-- Fixture margin positions at times 10, 20, 200 and 300. -/
def wMp1 : Action := .marginPosition ⟨.known "BTC", 5, 10, "poloniex"⟩

def wMp2 : Action := .marginPosition ⟨.known "BTC", 7, 20, "poloniex"⟩

def wMpLate : Action := .marginPosition ⟨.known "BTC", 9, 200, "poloniex"⟩

def wMpPost : Action := .marginPosition ⟨.known "BTC", 11, 300, "poloniex"⟩

/-- Fixture: the fresh state with the processing window starting at 10. -/
def wStart10 : AccountantState := {wState with start_ts := 10}

/-- Fixture: an asset movement before the window start. -/
def wMove : AssetMovement := ⟨.known "BTC", "EUR", 1, "deposit", "kraken", 5⟩

/-- Fixture: a BUY trade happening before the window start. -/
def wTradeBuy : Trade := ⟨.known "XMR", .known "BTC", 2, 3, 0, "BTC", "poloniex", 5, .buy⟩

/-- Fixture: a SETTLEMENT_BUY trade inside the window. -/
def wTradeSettleBuy : Trade :=
  ⟨.known "XMR", .known "BTC", 2, 3, 0, "BTC", "poloniex", 15, .settlement_buy⟩

/-- Fixture: a SELL trade whose base asset fails resolution. -/
def wTradeUnknown : Trade :=
  ⟨.unknownAsset "WEIRD", .known "BTC", 2, 3, 0, "BTC", "poloniex", 10, .sell⟩

/-- Fixture: a real-gas-price transaction before the window start. -/
def txA : EthereumTransaction := ⟨1, 100, "0xa", 5⟩

/-- Fixture: a sentinel-gas-price transaction inside the window. -/
def txB : EthereumTransaction := ⟨1, -1, "0xb", 15⟩

/-- Fixture: a real-gas-price transaction inside the window. -/
def txC : EthereumTransaction := ⟨2, 300, "0xc", 12⟩

/-- Fixture: the state `process_history` computes before its loop for a run
with `start_ts = 10`. -/
def gasStart : AccountantState := resetRunState 10 wState

/-- Fixture: the state after `process_action` raises on `wTxAction` under the
always-failing oracle. -/
def c1St : AccountantState := (process_action wEnvNoPrice wState wTxAction 100 0 wSettings).1

/-- Fixture: the final state of an empty `process_history` run. -/
def c3St : AccountantState := (process_history wEnvOk 0 100 [] [] [] [] [] wState).1

/-- Appending one message to the aggregator, with its kind. -/
def AccountantState.addMsg (st : AccountantState) (m : Message) : AccountantState :=
  {st with msgs := st.msgs ++ [m]}

/-- The state mutations `process_action` performs before dispatching an
in-window action: the ignored-assets read and the
`currently_processing_timestamp` update. -/
def bumpState (st : AccountantState) (ts : Time) : AccountantState :=
  {st with ignoredReads := st.ignoredReads + 1, currently_processing_timestamp := ts}

lemma dispatch_preserves_ignoredReads (env : Env) (st : AccountantState) (a : Action)
    (s : DBSettings) : (dispatch_action env st a s).1.ignoredReads = st.ignoredReads := by
  unfold dispatch_action add_loan_gain add_asset_movement_to_events add_margin_position
    account_for_gas_costs add_defi_event trade_add_to_sell_events
  repeat first
    | rfl
    | split
    | dsimp only

lemma dispatch_preserves_cpt (env : Env) (st : AccountantState) (a : Action)
    (s : DBSettings) : (dispatch_action env st a s).1.currently_processing_timestamp =
      st.currently_processing_timestamp := by
  unfold dispatch_action add_loan_gain add_asset_movement_to_events add_margin_position
    account_for_gas_costs add_defi_event trade_add_to_sell_events
  repeat first
    | rfl
    | split
    | dsimp only

lemma dispatch_preserves_msgs (env : Env) (st : AccountantState) (a : Action)
    (s : DBSettings) : (dispatch_action env st a s).1.msgs = st.msgs := by
  unfold dispatch_action add_loan_gain add_asset_movement_to_events add_margin_position
    account_for_gas_costs add_defi_event trade_add_to_sell_events
  repeat first
    | rfl
    | split
    | dsimp only

lemma dispatch_preserves_start_ts (env : Env) (st : AccountantState) (a : Action)
    (s : DBSettings) : (dispatch_action env st a s).1.start_ts = st.start_ts := by
  unfold dispatch_action add_loan_gain add_asset_movement_to_events add_margin_position
    account_for_gas_costs add_defi_event trade_add_to_sell_events
  repeat first
    | rfl
    | split
    | dsimp only

lemma dispatch_error_oracle (env : Env) (st : AccountantState) (a : Action) (s : DBSettings)
    (e : Err) (h : (dispatch_action env st a s).2 = .error e) :
    ∃ x y t, env.oracle x y t = .error e := by
  unfold dispatch_action add_loan_gain add_asset_movement_to_events add_margin_position
    account_for_gas_costs add_defi_event trade_add_to_sell_events
    get_rate_in_profit_currency get_fee_in_profit_currency at h
  repeat' (first | (split at h) | (dsimp only at h))
  all_goals (try cases h)
  all_goals (try (exact ⟨_, _, _, by assumption⟩))
  all_goals (rename_i hm)
  all_goals (split at hm)
  all_goals (try cases hm)
  all_goals exact ⟨_, _, _, by assumption⟩

lemma pa_assert (env : Env) (st : AccountantState) (a : Action) (end_ts prev_time : Time)
    (s : DBSettings) (h : action_get_timestamp a < prev_time) :
    process_action env st a end_ts prev_time s =
      ({st with ignoredReads := st.ignoredReads + 1},
       .error (.assertionError
         "During history processing the trades/loans are not in ascending order")) := by
  unfold process_action
  dsimp only
  rw [if_pos h]

lemma pa_endstop (env : Env) (st : AccountantState) (a : Action) (end_ts prev_time : Time)
    (s : DBSettings) (h1 : ¬ action_get_timestamp a < prev_time)
    (h2 : end_ts < action_get_timestamp a) :
    process_action env st a end_ts prev_time s =
      ({st with ignoredReads := st.ignoredReads + 1}, .ok (false, action_get_timestamp a)) := by
  unfold process_action
  dsimp only
  rw [if_neg h1, if_pos h2]

lemma pa_inwindow (env : Env) (st : AccountantState) (a : Action) (end_ts prev_time : Time)
    (s : DBSettings) (h1 : ¬ action_get_timestamp a < prev_time)
    (h2 : ¬ end_ts < action_get_timestamp a) :
    process_action env st a end_ts prev_time s =
      (let st1 : AccountantState := bumpState st (action_get_timestamp a)
      match action_get_assets a with
      | .error r => (st1.addMsg (resolutionMsg r), .ok (true, action_get_timestamp a))
      | .ok (a1, a2) =>
        if a1.isUnknownTok || (a2.map ResolvedAsset.isUnknownTok).getD false then
          (st1, .ok (true, action_get_timestamp a))
        else if a1.isIgnored (env.ignoredAssetsSeq st.ignoredReads) ||
            (a2.map (ResolvedAsset.isIgnored (env.ignoredAssetsSeq st.ignoredReads))).getD
              false then
          (st1, .ok (true, action_get_timestamp a))
        else
          ((dispatch_action env st1 a s).1,
           (dispatch_action env st1 a s).2.map fun _ => (true, action_get_timestamp a))) := by
  unfold process_action
  dsimp only
  rw [if_neg h1, if_neg h2]
  rcases hres : action_get_assets a with r | ⟨a1, a2⟩
  · simp only [hres]
    cases r <;> rfl
  · simp only [hres]
    rfl

lemma pa_reads (env : Env) (st : AccountantState) (a : Action) (end_ts prev_time : Time)
    (s : DBSettings) :
    (process_action env st a end_ts prev_time s).1.ignoredReads = st.ignoredReads + 1 := by
  by_cases h1 : action_get_timestamp a < prev_time
  · rw [pa_assert env st a end_ts prev_time s h1]
  · by_cases h2 : end_ts < action_get_timestamp a
    · rw [pa_endstop env st a end_ts prev_time s h1 h2]
    · rw [pa_inwindow env st a end_ts prev_time s h1 h2]
      dsimp only
      rcases action_get_assets a with r | ⟨a1, a2⟩
      · rfl
      · dsimp only
        split
        · rfl
        · split
          · rfl
          · dsimp only
            rw [dispatch_preserves_ignoredReads]
            rfl

lemma pa_cpt_inwindow (env : Env) (st : AccountantState) (a : Action) (end_ts prev_time : Time)
    (s : DBSettings) (h1 : ¬ action_get_timestamp a < prev_time)
    (h2 : ¬ end_ts < action_get_timestamp a) :
    (process_action env st a end_ts prev_time s).1.currently_processing_timestamp =
      action_get_timestamp a := by
  rw [pa_inwindow env st a end_ts prev_time s h1 h2]
  dsimp only
  rcases action_get_assets a with r | ⟨a1, a2⟩
  · rfl
  · dsimp only
    split
    · rfl
    · split
      · rfl
      · dsimp only
        rw [dispatch_preserves_cpt]
        rfl

lemma pa_not_stop (env : Env) (st : AccountantState) (a : Action) (end_ts prev_time : Time)
    (s : DBSettings) (h2 : ¬ end_ts < action_get_timestamp a) :
    ∀ u, (process_action env st a end_ts prev_time s).2 ≠ .ok (false, u) := by
  intro u hu
  by_cases h1 : action_get_timestamp a < prev_time
  · rw [pa_assert env st a end_ts prev_time s h1] at hu
    exact Except.noConfusion hu
  · rw [pa_inwindow env st a end_ts prev_time s h1 h2] at hu
    try dsimp only at hu
    rcases hres : action_get_assets a with r | ⟨a1, a2⟩
    · simp only [hres] at hu
      simp at hu
    · simp only [hres] at hu
      try dsimp only at hu
      split at hu
      · simp at hu
      · split at hu
        · simp at hu
        · try dsimp only at hu
          rcases hd : (dispatch_action env (bumpState st (action_get_timestamp a)) a s).2
            with e2 | u2
          · rw [hd] at hu
            exact Except.noConfusion hu
          · rw [hd] at hu
            simp [Except.map] at hu

lemma pa_prev (env : Env) (st : AccountantState) (a : Action) (end_ts prev_time : Time)
    (s : DBSettings) :
    ∀ c u, (process_action env st a end_ts prev_time s).2 = .ok (c, u) →
      u = action_get_timestamp a := by
  intro c u hu
  by_cases h1 : action_get_timestamp a < prev_time
  · rw [pa_assert env st a end_ts prev_time s h1] at hu
    exact Except.noConfusion hu
  · by_cases h2 : end_ts < action_get_timestamp a
    · rw [pa_endstop env st a end_ts prev_time s h1 h2] at hu
      injection hu with h3
      injection h3 with h4 h5
      exact h5.symm
    · rw [pa_inwindow env st a end_ts prev_time s h1 h2] at hu
      try dsimp only at hu
      rcases hres : action_get_assets a with r | ⟨a1, a2⟩
      · simp only [hres] at hu
        injection hu with h3
        injection h3 with h4 h5
        exact h5.symm
      · simp only [hres] at hu
        try dsimp only at hu
        split at hu
        · injection hu with h3
          injection h3 with h4 h5
          exact h5.symm
        · split at hu
          · injection hu with h3
            injection h3 with h4 h5
            exact h5.symm
          · try dsimp only at hu
            rcases hd : (dispatch_action env (bumpState st (action_get_timestamp a)) a s).2
              with e2 | u2
            · rw [hd] at hu
              exact Except.noConfusion hu
            · rw [hd] at hu
              injection hu with h3
              injection h3 with h4 h5
              exact h5.symm

lemma pa_err_oracle (env : Env) (st : AccountantState) (a : Action) (end_ts prev_time : Time)
    (s : DBSettings) (e : Err) (h1 : ¬ action_get_timestamp a < prev_time)
    (hu : (process_action env st a end_ts prev_time s).2 = .error e) :
    ∃ x y t, env.oracle x y t = .error e := by
  by_cases h2 : end_ts < action_get_timestamp a
  · rw [pa_endstop env st a end_ts prev_time s h1 h2] at hu
    exact Except.noConfusion hu
  · rw [pa_inwindow env st a end_ts prev_time s h1 h2] at hu
    try dsimp only at hu
    rcases hres : action_get_assets a with r | ⟨a1, a2⟩
    · simp only [hres] at hu
      exact Except.noConfusion hu
    · simp only [hres] at hu
      try dsimp only at hu
      split at hu
      · exact Except.noConfusion hu
      · split at hu
        · exact Except.noConfusion hu
        · try dsimp only at hu
          rcases hd : (dispatch_action env (bumpState st (action_get_timestamp a)) a s).2
            with e2 | u2
          · rw [hd] at hu
            simp [Except.map] at hu
            subst hu
            exact dispatch_error_oracle env _ a s _ hd
          · rw [hd] at hu
            exact Except.noConfusion hu

lemma processActions_append (env : Env) (s : DBSettings) (end_ts : Time)
    (l1 l2 : List Action) (st : AccountantState) (pt : Time) :
    processActions env s end_ts (l1 ++ l2) st pt =
      match processActions env s end_ts l1 st pt with
      | .finished st1 pt1 => processActions env s end_ts l2 st1 pt1
      | .stopped st1 => .stopped st1
      | .failed st1 e => .failed st1 e := by
  induction l1 generalizing st pt with
  | nil => simp [processActions]
  | cons a rest ih =>
      simp only [List.cons_append, processActions]
      rcases hpa : process_action env st a end_ts pt s with ⟨st2, r⟩
      rcases r with e | ⟨c, p2⟩
      · cases e <;> simp [ih]
      · cases c <;> simp [ih]

lemma processActions_notstop (env : Env) (s : DBSettings) (end_ts : Time) :
    ∀ (l : List Action) (st : AccountantState) (pt : Time),
      (∀ x ∈ l, action_get_timestamp x ≤ end_ts) →
      ∀ st', processActions env s end_ts l st pt ≠ .stopped st' := by
  intro l
  induction l with
  | nil =>
      intro st pt h st' hc
      simp [processActions] at hc
  | cons a rest ih =>
      intro st pt h st' hc
      simp only [processActions] at hc
      rcases hpa : process_action env st a end_ts pt s with ⟨st2, r⟩
      rw [hpa] at hc
      rcases r with e | ⟨c, p2⟩
      · cases e with
        | priceQueryUnsupportedAsset d =>
            dsimp only at hc
            exact ih _ pt (fun x hx => h x (List.mem_cons_of_mem a hx)) st' hc
        | noPriceForGivenTimestamp d =>
            dsimp only at hc
            exact ih _ pt (fun x hx => h x (List.mem_cons_of_mem a hx)) st' hc
        | remoteError d =>
            dsimp only at hc
            exact ih _ pt (fun x hx => h x (List.mem_cons_of_mem a hx)) st' hc
        | assertionError d =>
            dsimp only at hc
            exact LoopOutcome.noConfusion hc
        | otherError d =>
            dsimp only at hc
            exact LoopOutcome.noConfusion hc
      · cases c with
        | false =>
            have hns := pa_not_stop env st a end_ts pt s
              (not_lt.mpr (h a (List.mem_cons_self a rest))) p2
            rw [hpa] at hns
            exact hns rfl
        | true =>
            simp only [if_pos] at hc
            exact ih st2 p2 (fun x hx => h x (List.mem_cons_of_mem a hx)) st' hc

lemma processActions_prev (env : Env) (s : DBSettings) (end_ts : Time) :
    ∀ (l : List Action) (st : AccountantState) (pt : Time) (st1 : AccountantState) (pt1 : Time),
      processActions env s end_ts l st pt = .finished st1 pt1 →
      pt1 = pt ∨ ∃ x ∈ l, pt1 = action_get_timestamp x := by
  intro l
  induction l with
  | nil =>
      intro st pt st1 pt1 h
      simp only [processActions] at h
      injection h with h2 h3
      exact Or.inl h3.symm
  | cons a rest ih =>
      intro st pt st1 pt1 h
      simp only [processActions] at h
      rcases hpa : process_action env st a end_ts pt s with ⟨st2, r⟩
      rw [hpa] at h
      rcases r with e | ⟨c, p2⟩
      · cases e with
        | priceQueryUnsupportedAsset d =>
            dsimp only at h
            rcases ih _ pt st1 pt1 h with h2 | ⟨x, hx, h3⟩
            · exact Or.inl h2
            · exact Or.inr ⟨x, List.mem_cons_of_mem a hx, h3⟩
        | noPriceForGivenTimestamp d =>
            dsimp only at h
            rcases ih _ pt st1 pt1 h with h2 | ⟨x, hx, h3⟩
            · exact Or.inl h2
            · exact Or.inr ⟨x, List.mem_cons_of_mem a hx, h3⟩
        | remoteError d =>
            dsimp only at h
            rcases ih _ pt st1 pt1 h with h2 | ⟨x, hx, h3⟩
            · exact Or.inl h2
            · exact Or.inr ⟨x, List.mem_cons_of_mem a hx, h3⟩
        | assertionError d =>
            dsimp only at h
            exact LoopOutcome.noConfusion h
        | otherError d =>
            dsimp only at h
            exact LoopOutcome.noConfusion h
      · cases c with
        | false =>
            simp only [Bool.false_eq_true, if_false] at h
            exact LoopOutcome.noConfusion h
        | true =>
            simp only [if_pos] at h
            have hts : p2 = action_get_timestamp a :=
              pa_prev env st a end_ts pt s true p2 (by rw [hpa])
            rcases ih st2 p2 st1 pt1 h with h2 | ⟨x, hx, h3⟩
            · exact Or.inr ⟨a, List.mem_cons_self a rest, h2.trans hts⟩
            · exact Or.inr ⟨x, List.mem_cons_of_mem a hx, h3⟩

lemma addError_cpt (st : AccountantState) (m : String) :
    (st.addError m).currently_processing_timestamp = st.currently_processing_timestamp := rfl

lemma loop_cpt_aux (env : Env) (s : DBSettings) (end_ts : Time)
    (hor : ∀ x y t d, env.oracle x y t ≠ .error (.assertionError d)) :
    ∀ (l : List Action) (st : AccountantState) (pt : Time),
      List.Pairwise (fun x y => action_get_timestamp x ≤ action_get_timestamp y) l →
      (∀ x ∈ l, pt ≤ action_get_timestamp x) →
      (∀ x ∈ l, st.currently_processing_timestamp ≤ action_get_timestamp x) →
      st.currently_processing_timestamp ≤
        (processActions env s end_ts l st pt).state.currently_processing_timestamp ∧
      ∀ st' d, processActions env s end_ts l st pt ≠ .failed st' (.assertionError d) := by
  intro l
  induction l with
  | nil =>
      intro st pt hsort hpt hcpt
      constructor
      · exact le_refl _
      · intro st' d hc
        simp [processActions] at hc
  | cons a rest ih =>
      intro st pt hsort hpt hcpt
      obtain ⟨hhead, hrest⟩ := List.pairwise_cons.mp hsort
      have h1 : ¬ action_get_timestamp a < pt := not_lt.mpr (hpt a (List.mem_cons_self a rest))
      have hsta : st.currently_processing_timestamp ≤ action_get_timestamp a :=
        hcpt a (List.mem_cons_self a rest)
      by_cases h2 : end_ts < action_get_timestamp a
      · rw [show processActions env s end_ts (a :: rest) st pt =
            .stopped {st with ignoredReads := st.ignoredReads + 1} from by
          simp only [processActions]
          rw [pa_endstop env st a end_ts pt s h1 h2]
          rfl]
        constructor
        · exact le_refl _
        · intro st' d hc
          exact LoopOutcome.noConfusion hc
      · -- in-window
        rcases hpa : process_action env st a end_ts pt s with ⟨st2, r⟩
        have hcpt2 : st2.currently_processing_timestamp = action_get_timestamp a := by
          have := pa_cpt_inwindow env st a end_ts pt s h1 h2
          rw [hpa] at this
          exact this
        rcases r with e | ⟨c, p2⟩
        · -- exception raised
          cases e with
          | priceQueryUnsupportedAsset d =>
              rw [show processActions env s end_ts (a :: rest) st pt =
                  processActions env s end_ts rest
                    (st2.addError (skipMsgUnsupported (action_get_timestamp a))) pt from by
                simp only [processActions]
                rw [hpa]]
              have hih := ih (st2.addError (skipMsgUnsupported (action_get_timestamp a))) pt
                hrest (fun x hx => hpt x (List.mem_cons_of_mem a hx))
                (fun x hx => by
                  rw [addError_cpt, hcpt2]
                  exact hhead x hx)
              refine ⟨?_, hih.2⟩
              calc st.currently_processing_timestamp ≤ action_get_timestamp a := hsta
                _ = (st2.addError (skipMsgUnsupported (action_get_timestamp a))).currently_processing_timestamp := by
                    rw [addError_cpt, hcpt2]
                _ ≤ _ := hih.1
          | noPriceForGivenTimestamp d =>
              rw [show processActions env s end_ts (a :: rest) st pt =
                  processActions env s end_ts rest
                    (st2.addError (skipMsgNoPrice (action_get_timestamp a) d)) pt from by
                simp only [processActions]
                rw [hpa]]
              have hih := ih (st2.addError (skipMsgNoPrice (action_get_timestamp a) d)) pt
                hrest (fun x hx => hpt x (List.mem_cons_of_mem a hx))
                (fun x hx => by
                  rw [addError_cpt, hcpt2]
                  exact hhead x hx)
              refine ⟨?_, hih.2⟩
              calc st.currently_processing_timestamp ≤ action_get_timestamp a := hsta
                _ = (st2.addError (skipMsgNoPrice (action_get_timestamp a) d)).currently_processing_timestamp := by
                    rw [addError_cpt, hcpt2]
                _ ≤ _ := hih.1
          | remoteError d =>
              rw [show processActions env s end_ts (a :: rest) st pt =
                  processActions env s end_ts rest
                    (st2.addError (skipMsgRemote (action_get_timestamp a) d)) pt from by
                simp only [processActions]
                rw [hpa]]
              have hih := ih (st2.addError (skipMsgRemote (action_get_timestamp a) d)) pt
                hrest (fun x hx => hpt x (List.mem_cons_of_mem a hx))
                (fun x hx => by
                  rw [addError_cpt, hcpt2]
                  exact hhead x hx)
              refine ⟨?_, hih.2⟩
              calc st.currently_processing_timestamp ≤ action_get_timestamp a := hsta
                _ = (st2.addError (skipMsgRemote (action_get_timestamp a) d)).currently_processing_timestamp := by
                    rw [addError_cpt, hcpt2]
                _ ≤ _ := hih.1
          | assertionError d =>
              exfalso
              have := pa_err_oracle env st a end_ts pt s (.assertionError d) h1 (by rw [hpa])
              obtain ⟨x, y, t, hx⟩ := this
              exact hor x y t d hx
          | otherError d =>
              rw [show processActions env s end_ts (a :: rest) st pt =
                  .failed st2 (.otherError d) from by
                simp only [processActions]
                rw [hpa]]
              constructor
              · rw [LoopOutcome.state, hcpt2]
                exact hsta
              · intro st' d2 hc
                injection hc with h3 h4
                exact Err.noConfusion h4
        · -- normal return
          have hc : c = true := by
            cases c with
            | true => rfl
            | false =>
                exfalso
                have hns := pa_not_stop env st a end_ts pt s h2 p2
                rw [hpa] at hns
                exact hns rfl
          subst hc
          have hp2 : p2 = action_get_timestamp a :=
            pa_prev env st a end_ts pt s true p2 (by rw [hpa])
          rw [show processActions env s end_ts (a :: rest) st pt =
              processActions env s end_ts rest st2 p2 from by
            simp only [processActions]
            rw [hpa]
            simp]
          have hih := ih st2 p2 hrest
            (fun x hx => by rw [hp2]; exact hhead x hx)
            (fun x hx => by rw [hcpt2]; exact hhead x hx)
          refine ⟨?_, hih.2⟩
          calc st.currently_processing_timestamp ≤ action_get_timestamp a := hsta
            _ = st2.currently_processing_timestamp := hcpt2.symm
            _ ≤ _ := hih.1

/-- C3: in every report `process_history` returns, `total_taxable_profit_loss`
is `taxable_trade_profit_loss + margin_positions_profit_loss +
defi_profit_loss + loan_profit − settlement_losses − asset_movement_fees −
eth_transactions_gas_costs`, and `total_profit_loss` is
`general_trade_profit_loss` plus the same sum of the other-action terms. -/
theorem claim_C3_report_totals (env : Env) (start_ts end_ts : Time)
    (th : List Action) (lh : List Loan) (am : List AssetMovement)
    (et : List EthereumTransaction) (de : List DefiEvent)
    (st0 st : AccountantState) (r : Report)
    (h : process_history env start_ts end_ts th lh am et de st0 = (st, Except.ok r)) :
    r.total_taxable_profit_loss =
        r.taxable_trade_profit_loss + r.margin_positions_profit_loss +
        r.defi_profit_loss + r.loan_profit - r.settlement_losses -
        r.asset_movement_fees - r.ethereum_transaction_gas_costs ∧
    r.total_profit_loss =
        r.general_trade_profit_loss + (r.margin_positions_profit_loss +
        r.defi_profit_loss + r.loan_profit - r.settlement_losses -
        r.asset_movement_fees - r.ethereum_transaction_gas_costs) := by
  unfold process_history at h
  dsimp only at h
  split at h
  · simp at h
  · simp only [Prod.mk.injEq, Except.ok.injEq] at h
    obtain ⟨h1, h2⟩ := h
    subst h2
    constructor <;> simp [buildReport] <;> ring
  · simp only [Prod.mk.injEq, Except.ok.injEq] at h
    obtain ⟨h1, h2⟩ := h
    subst h2
    constructor <;> simp [buildReport] <;> ring

/-- Witness for C3: the empty run. -/
theorem claim_C3_witness :
    (buildReport c3St).total_taxable_profit_loss =
        (buildReport c3St).taxable_trade_profit_loss +
        (buildReport c3St).margin_positions_profit_loss +
        (buildReport c3St).defi_profit_loss + (buildReport c3St).loan_profit -
        (buildReport c3St).settlement_losses - (buildReport c3St).asset_movement_fees -
        (buildReport c3St).ethereum_transaction_gas_costs ∧
    (buildReport c3St).total_profit_loss =
        (buildReport c3St).general_trade_profit_loss +
        ((buildReport c3St).margin_positions_profit_loss +
        (buildReport c3St).defi_profit_loss + (buildReport c3St).loan_profit -
        (buildReport c3St).settlement_losses - (buildReport c3St).asset_movement_fees -
        (buildReport c3St).ethereum_transaction_gas_costs) :=
  claim_C3_report_totals wEnvOk 0 100 [] [] [] [] [] wState c3St (buildReport c3St) rfl

/-- C9 counterexample: a run over two margin positions performs two reads of
the ignored-assets set (one per action), not one per run. -/
theorem claim_C9_counterexample :
    (process_history wEnvOk 0 100 [wMp1, wMp2] [] [] [] [] wState).1.ignoredReads = 2 ∧
    ¬ (process_history wEnvOk 0 100 [wMp1, wMp2] [] [] [] [] wState).1.ignoredReads = 1 := by
  constructor <;> decide

/-- C9 (amended): the ignored-assets set is read from the database exactly
once per `process_action` call — that is, once per action, not once per
`process_history` run. -/
theorem claim_C9_reads_once_per_action (env : Env) (st : AccountantState) (a : Action)
    (end_ts prev_time : Time) (s : DBSettings) :
    (process_action env st a end_ts prev_time s).1.ignoredReads = st.ignoredReads + 1 :=
  pa_reads env st a end_ts prev_time s

/-- C10: when a transaction carries a real gas price and the ETH rate lookup
fails, `account_for_gas_costs` leaves `eth_transactions_gas_costs` (and
everything else) unchanged but has already updated `last_gas_price` to the
transaction's gas price. -/
theorem claim_C10_carry_forward_on_price_error (env : Env) (st : AccountantState)
    (tx : EthereumTransaction) (e : Err) (h1 : tx.gas_price ≠ -1)
    (h2 : ¬ tx.timestamp < st.start_ts)
    (h3 : env.oracle A_ETH st.profit_currency tx.timestamp = .error e)
    (h4 : e.isRecoverable = true) :
    account_for_gas_costs env st tx true =
      ({st with last_gas_price := tx.gas_price}, .error e) := by
  unfold account_for_gas_costs get_rate_in_profit_currency
  rw [if_neg (by decide : ¬ ((!true) = true)), if_neg h2]
  dsimp only
  simp only [if_neg h1]
  rw [h3]

/-- Witness for C10. -/
theorem claim_C10_witness :
    account_for_gas_costs wEnvNoPrice wState wTx true =
      ({wState with last_gas_price := wTx.gas_price},
       .error (.noPriceForGivenTimestamp "no price found")) :=
  claim_C10_carry_forward_on_price_error wEnvNoPrice wState wTx
    (.noPriceForGivenTimestamp "no price found") (by decide) (by decide) rfl rfl

/-- C8: a SETTLEMENT_BUY trade is accounted as a disposal of BTC: the ledger
receives one `add_sell` call with selling asset BTC, selling amount
`trade_rate * trade_amount`, gain valued through BTC's rate in the reporting
currency at the trade's timestamp, and no receiving asset - so no buy lot is
recorded for the nominally bought asset. -/
theorem claim_C8_settlement_buy (env : Env) (st : AccountantState) (t : Trade)
    (end_ts pt : Time) (s : DBSettings) (b q : String) (btc_rate fee_rate : ℚ)
    (htype : t.trade_type = .settlement_buy)
    (hbase : t.base_asset = .known b) (hquote : t.quote_asset = .known q)
    (hig1 : b ∉ env.ignoredAssetsSeq st.ignoredReads)
    (hig2 : q ∉ env.ignoredAssetsSeq st.ignoredReads)
    (h1 : ¬ action_get_timestamp (.trade t) < pt)
    (h2 : ¬ end_ts < action_get_timestamp (.trade t))
    (hbtc : env.oracle A_BTC st.profit_currency t.timestamp = .ok btc_rate)
    (hfee : env.oracle t.fee_currency st.profit_currency t.timestamp = .ok fee_rate) :
    process_action env st (.trade t) end_ts pt s =
      ((bumpState st t.timestamp).appendOp
        (.addSell t.location A_BTC (t.rate * t.amount) none none
          (btc_rate * t.rate * t.amount) (fee_rate * t.fee) t.rate btc_rate
          t.timestamp true),
       .ok (true, t.timestamp)) := by
  rw [pa_inwindow env st (.trade t) end_ts pt s h1 h2]
  dsimp only
  have hres : action_get_assets (.trade t) = .ok (.known b, some (.known q)) := by
    simp only [action_get_assets, hbase, hquote, resolveRaw]
    rfl
  simp only [hres]
  try dsimp only
  rw [if_neg (by simp [ResolvedAsset.isUnknownTok])]
  rw [if_neg (by simp [ResolvedAsset.isIgnored, hig1, hig2])]
  unfold dispatch_action
  simp only [htype]
  unfold get_rate_in_profit_currency get_fee_in_profit_currency
  simp only [bumpState]
  try dsimp only
  rw [hbtc, hfee]
  rfl
/-- Witness for C8. -/
theorem claim_C8_witness :
    process_action wEnvOk wState (.trade wTradeSettleBuy) 100 0 wSettings =
      ((bumpState wState wTradeSettleBuy.timestamp).appendOp
        (.addSell wTradeSettleBuy.location A_BTC
          (wTradeSettleBuy.rate * wTradeSettleBuy.amount) none none
          (1 * wTradeSettleBuy.rate * wTradeSettleBuy.amount)
          (1 * wTradeSettleBuy.fee) wTradeSettleBuy.rate 1
          wTradeSettleBuy.timestamp true),
       .ok (true, wTradeSettleBuy.timestamp)) :=
  claim_C8_settlement_buy wEnvOk wState wTradeSettleBuy 100 0 wSettings "XMR" "BTC" 1 1
    rfl rfl rfl (by decide) (by decide) (by decide) (by decide) rfl rfl

/-- C4: monetary effects before `start_ts` are not counted - an asset
movement or an ethereum transaction with timestamp strictly below `start_ts`
changes nothing (in particular neither `asset_movement_fees` nor
`eth_transactions_gas_costs`) - while a trade before `start_ts` is still
dispatched to the ledger (a buy records its lot-creating ledger call
unconditionally on `start_ts`): processing starts from the first historical
action, not from `start_ts`. -/
theorem claim_C4_start_ts_gates_only_money :
    (∀ (env : Env) (st : AccountantState) (m : AssetMovement),
      m.timestamp < st.start_ts → add_asset_movement_to_events env st m = (st, .ok ())) ∧
    (∀ (env : Env) (st : AccountantState) (tx : EthereumTransaction) (b : Bool),
      tx.timestamp < st.start_ts → account_for_gas_costs env st tx b = (st, .ok ())) ∧
    (∀ (env : Env) (st : AccountantState) (t : Trade) (end_ts pt : Time) (s : DBSettings)
      (b q : String) (fee_rate : ℚ),
      t.timestamp < st.start_ts →
      t.trade_type = .buy → t.base_asset = .known b → t.quote_asset = .known q →
      b ∉ env.ignoredAssetsSeq st.ignoredReads →
      q ∉ env.ignoredAssetsSeq st.ignoredReads →
      ¬ action_get_timestamp (.trade t) < pt →
      ¬ end_ts < action_get_timestamp (.trade t) →
      env.oracle t.fee_currency st.profit_currency t.timestamp = .ok fee_rate →
      process_action env st (.trade t) end_ts pt s =
        ((bumpState st t.timestamp).appendOp
          (.addBuyAndCorrespondingSell t.location t.base_asset.ident t.amount
            t.quote_asset.ident t.rate (fee_rate * t.fee) t.fee_currency t.timestamp),
         .ok (true, t.timestamp))) := by
  refine ⟨?_, ?_, ?_⟩
  · intro env st m h
    unfold add_asset_movement_to_events
    rw [if_pos h]
  · intro env st tx b h
    unfold account_for_gas_costs
    cases b with
    | false => rfl
    | true =>
        rw [if_neg (by decide : ¬ ((!true) = true)), if_pos h]
  · intro env st t end_ts pt s b q fee_rate hstart htype hbase hquote hig1 hig2 h1 h2 hfee
    rw [pa_inwindow env st (.trade t) end_ts pt s h1 h2]
    dsimp only
    have hres : action_get_assets (.trade t) = .ok (.known b, some (.known q)) := by
      simp only [action_get_assets, hbase, hquote, resolveRaw]
      rfl
    simp only [hres]
    try dsimp only
    rw [if_neg (by simp [ResolvedAsset.isUnknownTok])]
    rw [if_neg (by simp [ResolvedAsset.isIgnored, hig1, hig2])]
    unfold dispatch_action
    simp only [htype]
    unfold get_fee_in_profit_currency
    simp only [bumpState]
    try dsimp only
    rw [hfee]
    rfl

/-- Witness for C4: a movement and a transaction at time 5 with
`start_ts = 10`, and a BUY trade at time 5 still producing its ledger call. -/
theorem claim_C4_witness :
    add_asset_movement_to_events wEnvOk wStart10 wMove = (wStart10, .ok ()) ∧
    account_for_gas_costs wEnvOk wStart10 txA true = (wStart10, .ok ()) ∧
    process_action wEnvOk wStart10 (.trade wTradeBuy) 100 0 wSettings =
      ((bumpState wStart10 wTradeBuy.timestamp).appendOp
        (.addBuyAndCorrespondingSell wTradeBuy.location wTradeBuy.base_asset.ident
          wTradeBuy.amount wTradeBuy.quote_asset.ident wTradeBuy.rate
          (1 * wTradeBuy.fee) wTradeBuy.fee_currency wTradeBuy.timestamp),
       .ok (true, wTradeBuy.timestamp)) :=
  ⟨claim_C4_start_ts_gates_only_money.1 wEnvOk wStart10 wMove (by decide),
   claim_C4_start_ts_gates_only_money.2.1 wEnvOk wStart10 txA true (by decide),
   claim_C4_start_ts_gates_only_money.2.2 wEnvOk wStart10 wTradeBuy 100 0 wSettings
     "XMR" "BTC" 1 (by decide) rfl rfl rfl (by decide) (by decide) (by decide) (by decide) rfl⟩

/-- C7: asset resolution happens before the ignored-assets check - an action
whose asset resolution fails is skipped with exactly one user-visible
warning/error message and the run continues, for every ignored-assets set;
an action whose resolved asset is in the ignored set is skipped silently,
with no message. -/
theorem claim_C7_resolution_before_ignore :
    (∀ (env : Env) (st : AccountantState) (a : Action) (end_ts pt : Time) (s : DBSettings)
      (r : ResolutionError), action_get_assets a = .error r →
      ¬ action_get_timestamp a < pt → ¬ end_ts < action_get_timestamp a →
      process_action env st a end_ts pt s =
        ((bumpState st (action_get_timestamp a)).addMsg (resolutionMsg r),
         .ok (true, action_get_timestamp a))) ∧
    (∀ (env : Env) (st : AccountantState) (a : Action) (end_ts pt : Time) (s : DBSettings)
      (a1 : ResolvedAsset) (a2 : Option ResolvedAsset),
      action_get_assets a = .ok (a1, a2) →
      (a1.isUnknownTok || (a2.map ResolvedAsset.isUnknownTok).getD false) = false →
      (a1.isIgnored (env.ignoredAssetsSeq st.ignoredReads) ||
        (a2.map (ResolvedAsset.isIgnored (env.ignoredAssetsSeq st.ignoredReads))).getD
          false) = true →
      ¬ action_get_timestamp a < pt → ¬ end_ts < action_get_timestamp a →
      process_action env st a end_ts pt s =
        (bumpState st (action_get_timestamp a), .ok (true, action_get_timestamp a))) := by
  constructor
  · intro env st a end_ts pt s r hres h1 h2
    rw [pa_inwindow env st a end_ts pt s h1 h2]
    simp only [hres]
  · intro env st a end_ts pt s a1 a2 hres hnu hig h1 h2
    rw [pa_inwindow env st a end_ts pt s h1 h2]
    simp only [hres]
    try dsimp only
    rw [if_neg (by simp [hnu]), if_pos hig]

/-- Witness for C7: a trade with an unresolvable base asset is reported once
for any ignored set; a margin position on ignored BTC is skipped silently. -/
theorem claim_C7_witness :
    process_action wEnvIgnoredBtc wState (.trade wTradeUnknown) 100 0 wSettings =
      ((bumpState wState (action_get_timestamp (.trade wTradeUnknown))).addMsg
        (resolutionMsg (.unknownAsset "WEIRD")),
       .ok (true, action_get_timestamp (.trade wTradeUnknown))) ∧
    process_action wEnvIgnoredBtc wState wMp1 100 0 wSettings =
      (bumpState wState (action_get_timestamp wMp1),
       .ok (true, action_get_timestamp wMp1)) :=
  ⟨claim_C7_resolution_before_ignore.1 wEnvIgnoredBtc wState (.trade wTradeUnknown)
     100 0 wSettings (.unknownAsset "WEIRD") rfl (by decide) (by decide),
   claim_C7_resolution_before_ignore.2 wEnvIgnoredBtc wState wMp1 100 0 wSettings
     (.known "BTC") none rfl rfl rfl (by decide) (by decide)⟩

/-- C1: when `process_action` raises, exactly the three recoverable price
errors are caught - the loop appends one user-visible error message built
from the action's timestamp and continues with the remaining actions using
the same state and `prev_time` - while any other exception makes the loop
fail, propagating the error out of `process_history`. -/
theorem claim_C1_recoverable_skip_else_propagate (env : Env) (s : DBSettings)
    (end_ts : Time) (a : Action) (rest : List Action) (st st2 : AccountantState)
    (pt : Time) (e : Err)
    (h : process_action env st a end_ts pt s = (st2, .error e)) :
    (e.isRecoverable = true →
      processActions env s end_ts (a :: rest) st pt =
        processActions env s end_ts rest
          (st2.addError (skipMsg e (action_get_timestamp a))) pt) ∧
    (e.isRecoverable = false →
      processActions env s end_ts (a :: rest) st pt = .failed st2 e) := by
  constructor
  · intro hrec
    simp only [processActions]
    rw [h]
    cases e with
    | priceQueryUnsupportedAsset d => rfl
    | noPriceForGivenTimestamp d => rfl
    | remoteError d => rfl
    | assertionError d => exact absurd hrec (by simp [Err.isRecoverable])
    | otherError d => exact absurd hrec (by simp [Err.isRecoverable])
  · intro hrec
    simp only [processActions]
    rw [h]
    cases e with
    | priceQueryUnsupportedAsset d => exact absurd hrec (by simp [Err.isRecoverable])
    | noPriceForGivenTimestamp d => exact absurd hrec (by simp [Err.isRecoverable])
    | remoteError d => exact absurd hrec (by simp [Err.isRecoverable])
    | assertionError d => rfl
    | otherError d => rfl

/-- Witness for C1: a transaction whose ETH price lookup fails with
`NoPriceForGivenTimestamp` is skipped with one message. -/
theorem claim_C1_witness :
    (Err.noPriceForGivenTimestamp "no price found").isRecoverable = true ∧
    processActions wEnvNoPrice wSettings 100 [wTxAction] wState 0 =
      processActions wEnvNoPrice wSettings 100 []
        (c1St.addError (skipMsg (.noPriceForGivenTimestamp "no price found")
          (action_get_timestamp wTxAction))) 0 :=
  ⟨rfl,
   (claim_C1_recoverable_skip_else_propagate wEnvNoPrice wSettings 100 wTxAction []
     wState c1St 0 (.noPriceForGivenTimestamp "no price found") rfl).1 rfl⟩

/-- C2: in a sorted stream, the first action whose timestamp strictly
exceeds `end_ts` terminates the loop: the actions before it (all within
`end_ts`) are processed to completion, and the loop then stops having only
performed that action's ignored-assets read - neither it nor any later
action is accounted. -/
theorem claim_C2_end_ts_hard_stop (env : Env) (s : DBSettings) (end_ts : Time)
    (pre : List Action) (a : Action) (post : List Action) (st : AccountantState)
    (pt : Time)
    (hpre_end : ∀ x ∈ pre, action_get_timestamp x ≤ end_ts)
    (hpre_a : ∀ x ∈ pre, action_get_timestamp x ≤ action_get_timestamp a)
    (hpt : pt ≤ action_get_timestamp a)
    (ha : end_ts < action_get_timestamp a)
    (hnf : (processActions env s end_ts pre st pt).isFailed = false) :
    ∃ st1 pt1, processActions env s end_ts pre st pt = .finished st1 pt1 ∧
      processActions env s end_ts (pre ++ a :: post) st pt =
        .stopped {st1 with ignoredReads := st1.ignoredReads + 1} := by
  cases hout : processActions env s end_ts pre st pt with
  | finished st1 pt1 =>
      refine ⟨st1, pt1, rfl, ?_⟩
      rw [processActions_append, hout]
      have hpt1 : ¬ action_get_timestamp a < pt1 := by
        rcases processActions_prev env s end_ts pre st pt st1 pt1 hout with h2 | ⟨x, hx, h3⟩
        · rw [h2]
          exact not_lt.mpr hpt
        · rw [h3]
          exact not_lt.mpr (hpre_a x hx)
      simp only [processActions]
      rw [pa_endstop env st1 a end_ts pt1 s hpt1 ha]
      rfl
  | stopped st1 =>
      exact absurd hout (processActions_notstop env s end_ts pre st pt hpre_end st1)
  | failed st1 e =>
      rw [hout] at hnf
      simp [LoopOutcome.isFailed] at hnf

/-- Witness for C2: one in-window margin position, then one at time 200 with
`end_ts = 100`, then a later one that is never reached. -/
theorem claim_C2_witness :
    ∃ st1 pt1, processActions wEnvOk wSettings 100 [wMp1] wState 0 = .finished st1 pt1 ∧
      processActions wEnvOk wSettings 100 ([wMp1] ++ wMpLate :: [wMpPost]) wState 0 =
        .stopped {st1 with ignoredReads := st1.ignoredReads + 1} :=
  claim_C2_end_ts_hard_stop wEnvOk wSettings 100 [wMp1] wMpLate [wMpPost] wState 0
    (by decide) (by decide) (by decide) (by decide) (by decide)

/-- C6: under an oracle that never raises `AssertionError`, a stream whose
timestamps are sorted ascending never trips the ordering assertion and never
decreases `currently_processing_timestamp`; a descending timestamp pair makes
the loop fail immediately with the uncaught `AssertionError` - the state
keeps its messages (no user-visible report) and only the ignored-assets read
of the offending action has happened. -/
theorem claim_C6_ordering_assertion :
    (∀ (env : Env) (s : DBSettings) (end_ts : Time) (l : List Action)
      (st : AccountantState) (pt : Time),
      (∀ x y t d, env.oracle x y t ≠ .error (.assertionError d)) →
      List.Pairwise (fun x y => action_get_timestamp x ≤ action_get_timestamp y) l →
      (∀ x ∈ l, pt ≤ action_get_timestamp x) →
      (∀ x ∈ l, st.currently_processing_timestamp ≤ action_get_timestamp x) →
      st.currently_processing_timestamp ≤
        (processActions env s end_ts l st pt).state.currently_processing_timestamp ∧
      ∀ st' d, processActions env s end_ts l st pt ≠ .failed st' (.assertionError d)) ∧
    (∀ (env : Env) (s : DBSettings) (end_ts : Time) (a : Action) (rest : List Action)
      (st : AccountantState) (pt : Time),
      action_get_timestamp a < pt →
      processActions env s end_ts (a :: rest) st pt =
        .failed {st with ignoredReads := st.ignoredReads + 1}
          (.assertionError
            "During history processing the trades/loans are not in ascending order")) := by
  constructor
  · intro env s end_ts l st pt hor hsort hpt hcpt
    exact loop_cpt_aux env s end_ts hor l st pt hsort hpt hcpt
  · intro env s end_ts a rest st pt hlt
    simp only [processActions]
    rw [pa_assert env st a end_ts pt s hlt]

/-- Witness for C6: a sorted pair of margin positions keeps the timestamp
monotone; a pair presented in descending order fails fast. -/
theorem claim_C6_witness :
    (wState.currently_processing_timestamp ≤
      (processActions wEnvOk wSettings 100 [wMp1, wMp2] wState 0).state.currently_processing_timestamp ∧
      ∀ st' d, processActions wEnvOk wSettings 100 [wMp1, wMp2] wState 0 ≠
        .failed st' (.assertionError d)) ∧
    processActions wEnvOk wSettings 100 [wMp1] wState 20 =
      .failed {wState with ignoredReads := wState.ignoredReads + 1}
        (.assertionError
          "During history processing the trades/loans are not in ascending order") :=
  ⟨claim_C6_ordering_assertion.1 wEnvOk wSettings 100 [wMp1, wMp2] wState 0
     (fun x y t d h => Except.noConfusion h) (by decide) (by decide) (by decide),
   claim_C6_ordering_assertion.2 wEnvOk wSettings 100 wMp1 [] wState 20 (by decide)⟩

lemma gasc_start (env : Env) (st : AccountantState) (tx : EthereumTransaction) (b : Bool) :
    (account_for_gas_costs env st tx b).1.start_ts = st.start_ts := by
  unfold account_for_gas_costs get_rate_in_profit_currency
  repeat first
    | rfl
    | split
    | dsimp only

lemma gasc_last (env : Env) (st : AccountantState) (tx : EthereumTransaction) :
    (account_for_gas_costs env st tx true).1.last_gas_price =
      (if tx.timestamp < st.start_ts then st.last_gas_price
       else if tx.gas_price = -1 then st.last_gas_price else tx.gas_price) := by
  unfold account_for_gas_costs get_rate_in_profit_currency
  rw [if_neg (by decide : ¬ ((!true) = true))]
  repeat first
    | rfl
    | split
    | dsimp only

lemma runGas_last (env : Env) :
    ∀ (txs : List EthereumTransaction) (st : AccountantState),
      (runGasStream env txs st).last_gas_price =
        lastRealGasPrice st.start_ts txs st.last_gas_price := by
  intro txs
  induction txs with
  | nil => intro st; rfl
  | cons tx rest ih =>
      intro st
      show (runGasStream env rest (account_for_gas_costs env st tx true).1).last_gas_price = _
      rw [ih, gasc_start, gasc_last]
      rfl
/-- C5 counterexample: with `start_ts = 10`, the real gas price 100 of the
earlier transaction `txA` (time 5) is not carried forward - the state is
entirely unchanged - so the later sentinel transaction `txB` is costed with
the run default 2000000000 instead of 100, although `txA` is the most recent
earlier transaction in the sorted stream carrying a real gas price. -/
theorem claim_C5_counterexample :
    txA.gas_price = 100 ∧ txA.timestamp < gasStart.start_ts ∧ txB.gas_price = -1 ∧
    account_for_gas_costs wEnvOk gasStart txA true = (gasStart, .ok ()) ∧
    (runGasStream wEnvOk [txA, txB] gasStart).eth_transactions_gas_costs =
      (0 : ℚ) + ((1 * 2000000000 : Int) : ℚ) / 10 ^ 18 * 1 ∧
    ¬ ((0 : ℚ) + ((1 * 2000000000 : Int) : ℚ) / 10 ^ 18 * 1 =
       (0 : ℚ) + ((1 * 100 : Int) : ℚ) / 10 ^ 18 * 1) := by
  refine ⟨rfl, by decide, rfl, rfl, rfl, by norm_num⟩

/-- C5 (amended): the carried-forward gas price after a stream of
transactions is the gas price of the most recent transaction at or after
`start_ts` that carried a real (non-sentinel) gas price, or the initial
value when there is none; a sentinel transaction in the window is costed
with the carried value, a real-priced transaction in the window is costed
with its own gas price and replaces the carried value, and the carried
value is initialized to the fixed default 2000000000 at the start of every
run. -/
theorem claim_C5_gas_price_carry_forward :
    (∀ (env : Env) (txs : List EthereumTransaction) (st : AccountantState),
      (runGasStream env txs st).last_gas_price =
        lastRealGasPrice st.start_ts txs st.last_gas_price) ∧
    (∀ (env : Env) (st : AccountantState) (tx : EthereumTransaction) (rate : ℚ),
      tx.gas_price = -1 → ¬ tx.timestamp < st.start_ts →
      env.oracle A_ETH st.profit_currency tx.timestamp = .ok rate →
      account_for_gas_costs env st tx true =
        ({st with
          eth_transactions_gas_costs := st.eth_transactions_gas_costs +
            ((tx.gas_used * st.last_gas_price : Int) : ℚ) / 10 ^ 18 * rate}, .ok ())) ∧
    (∀ (env : Env) (st : AccountantState) (tx : EthereumTransaction) (rate : ℚ),
      tx.gas_price ≠ -1 → ¬ tx.timestamp < st.start_ts →
      env.oracle A_ETH st.profit_currency tx.timestamp = .ok rate →
      account_for_gas_costs env st tx true =
        ({st with
          last_gas_price := tx.gas_price,
          eth_transactions_gas_costs := st.eth_transactions_gas_costs +
            ((tx.gas_used * tx.gas_price : Int) : ℚ) / 10 ^ 18 * rate}, .ok ())) ∧
    (∀ (start_ts : Time) (st0 : AccountantState),
      (resetRunState start_ts st0).last_gas_price = 2000000000) := by
  refine ⟨runGas_last, ?_, ?_, fun _ _ => rfl⟩
  · intro env st tx rate hgp hts ho
    unfold account_for_gas_costs get_rate_in_profit_currency
    rw [if_neg (by decide : ¬ ((!true) = true)), if_neg hts]
    dsimp only
    simp only [if_pos hgp]
    rw [ho]
  · intro env st tx rate hgp hts ho
    unfold account_for_gas_costs get_rate_in_profit_currency
    rw [if_neg (by decide : ¬ ((!true) = true)), if_neg hts]
    dsimp only
    simp only [if_neg hgp]
    rw [ho]

/-- Witness for C5 (amended): the carried price over `[txA, txB]` from the
run default; the sentinel transaction `txB` costed with the carried value;
the real-priced transaction `txC` costed with its own price; the run
initialization. -/
theorem claim_C5_witness :
    (runGasStream wEnvOk [txA, txB] gasStart).last_gas_price =
      lastRealGasPrice gasStart.start_ts [txA, txB] gasStart.last_gas_price ∧
    account_for_gas_costs wEnvOk gasStart txB true =
      ({gasStart with
        eth_transactions_gas_costs := gasStart.eth_transactions_gas_costs +
          ((txB.gas_used * gasStart.last_gas_price : Int) : ℚ) / 10 ^ 18 * 1}, .ok ()) ∧
    account_for_gas_costs wEnvOk gasStart txC true =
      ({gasStart with
        last_gas_price := txC.gas_price,
        eth_transactions_gas_costs := gasStart.eth_transactions_gas_costs +
          ((txC.gas_used * txC.gas_price : Int) : ℚ) / 10 ^ 18 * 1}, .ok ()) ∧
    (resetRunState 10 wState).last_gas_price = 2000000000 :=
  ⟨claim_C5_gas_price_carry_forward.1 wEnvOk [txA, txB] gasStart,
   claim_C5_gas_price_carry_forward.2.1 wEnvOk gasStart txB 1 rfl (by decide) rfl,
   claim_C5_gas_price_carry_forward.2.2.1 wEnvOk gasStart txC 1 (by decide) (by decide) rfl,
   claim_C5_gas_price_carry_forward.2.2.2 10 wState⟩

end RotkiAccounting
